import Mathlib

/-!
Shallow embedding of the task-consolidation engine of the gmail-agent
repository: the similarity quick filter, the pairwise comparator, the
clustering pass, parent-task synthesis, deterministic task-id generation,
the duplicate-suppressing durable-store listener, and the
priority-propagation pass, together with theorems settling the frozen
claims about them.

Conventions of the embedding:
* JavaScript strings are Lean `String`s; `null`/`undefined` string fields
  are `Option String` (or the empty string where the source uses `x || y`
  falsy-coalescing on a field that is always a string).
* JavaScript numbers that hold similarity scores are rationals (`ℚ`);
  every comparison performed by the source on them is order-theoretic,
  which ℚ models exactly.
* Asynchronous external calls (the semantic classifier) are modelled by an
  explicit outcome value of type `Except Unit _` passed in as an argument:
  `.error` is a rejected promise, `.ok` a resolved one.  `await` of a
  rejection is `Except` error propagation.
* JavaScript `Map`s keyed by strings are association lists
  (`List (String × α)`) with `Map.get`/`Map.set` semantics.
-/

namespace GmailAgent

/-- Whitespace test used to model the JavaScript regex class `\s`
(restricted to the ASCII whitespace that `Char.isWhitespace` covers;
all inputs appearing in the claims fall in this range). -/
def isWsChar (c : Char) : Bool := c = ' ' || c = '\t' || c = '\n' || c = '\r'

/-- Word-character test modelling the JavaScript regex class `\w`,
i.e. ASCII letters, digits and underscore. -/
def isWordChar (c : Char) : Bool := c.isAlphanum || c = '_'

/-- ASCII lower-casing of one character, modelling what
`String.prototype.toLowerCase()` does on the ASCII range the engine's
data lives in. -/
def charToLower (c : Char) : Char :=
  if 'A' ≤ c ∧ c ≤ 'Z' then Char.ofNat (c.toNat + 32) else c

/-- `str.toLowerCase()`. -/
def jsToLower (s : String) : String := String.mk (s.toList.map charToLower)

/-- `str.trim()`: strip leading and trailing whitespace. -/
def jsTrim (s : String) : String :=
  String.mk (((s.toList.dropWhile isWsChar).reverse.dropWhile isWsChar).reverse)

/-- Model of `str.replace(/\s+/g, " ")` on a list of characters, one
character at a time: the flag records whether the previous character
belonged to the current whitespace run, so every maximal run becomes a
single space. -/
def collapseWsAux : Bool → List Char → List Char
  | _, [] => []
  | inRun, c :: cs =>
    if isWsChar c then
      if inRun then collapseWsAux true cs else ' ' :: collapseWsAux true cs
    else c :: collapseWsAux false cs

/-- `str.replace(/\s+/g, " ")` on a list of characters. -/
def collapseWsList (l : List Char) : List Char := collapseWsAux false l

/-- String version of `collapseWsList`. -/
def collapseWsStr (s : String) : String := String.mk (collapseWsList s.toList)

/-- Model of JavaScript `String.prototype.split(/\s+/)` on a list of
characters: the pieces between maximal whitespace runs, including the
empty piece produced before a leading separator and after a trailing one,
and `[""]` for the empty string (the regex does not match the empty
input).  `acc` is `some` of the reversed piece under construction, or
`none` while inside a separator run. -/
def splitWsAux : List Char → Option (List Char) → List (List Char)
  | [], some acc => [acc.reverse]
  | [], none => [[]]
  | c :: rest, some acc =>
    if isWsChar c then acc.reverse :: splitWsAux rest none
    else splitWsAux rest (some (c :: acc))
  | c :: rest, none =>
    if isWsChar c then splitWsAux rest none
    else splitWsAux rest (some [c])

/-- `s.split(/\s+/)` as a list of strings. -/
def jsSplitWs (s : String) : List String :=
  (splitWsAux s.toList (some [])).map String.mk

/-- The `normalize` closure of `quickStringComparison` in the source:
`str.toLowerCase().replace(/[^\w\s]/g, "")`. -/
def normalizeForCompare (s : String) : String :=
  String.mk ((jsToLower s).toList.filter (fun c => isWordChar c || isWsChar c))

/-- Source `aiService.quickStringComparison`: token-set Jaccard similarity
of the two normalized strings.  `new Set(xs)` is modelled by `List.dedup`
(only the cardinality of the set is ever used). -/
def quickStringComparison (str1 str2 : String) : ℚ :=
  let s1 := normalizeForCompare str1
  let s2 := normalizeForCompare str2
  let words1 := (jsSplitWs s1).dedup
  let words2 := (jsSplitWs s2).dedup
  let inter := words1.filter (fun x => words2.contains x)
  let union := (words1 ++ words2).dedup
  (inter.length : ℚ) / (union.length : ℚ)

/-- Outcome of one `model.invoke` + `parseFloat` round trip of the
semantic classifier, seen from `compareTaskSimilarity`:
`.error ()` is a rejected call (the `catch` path), `.ok none` a response
whose content does not parse to a number (`isNaN`), and `.ok (some q)` a
response parsing to the score `q`. -/
abbrev ClassifierOutcome := Except Unit (Option ℚ)

/-- Source `aiService.compareTaskSimilarity`.  Returns the score together
with a flag recording whether the semantic classifier was invoked. -/
def compareTaskSimilarity (classifier : ClassifierOutcome)
    (task1Description task2Description : String) : ℚ × Bool :=
  let quickSimilarity := quickStringComparison task1Description task2Description
  if quickSimilarity < 3/10 then (0, false)
  else if quickSimilarity > 9/10 then (1, false)
  else
    match classifier with
    | .error _ =>
        -- catch branch: `return this.quickStringComparison(d1 || "", d2 || "")`
        (quickStringComparison task1Description task2Description, true)
    | .ok none => (quickSimilarity, true)
    | .ok (some similarityScore) =>
        if similarityScore < 0 ∨ similarityScore > 1 then (quickSimilarity, true)
        else (similarityScore, true)

/-- The classifier round trip counts as failed when the call rejected or
its parsed score is not a number in `[0, 1]`. -/
def classifierFailed (c : ClassifierOutcome) : Prop :=
  c = .error () ∨ c = .ok none ∨ ∃ q, c = .ok (some q) ∧ (q < 0 ∨ q > 1)

/-- The task record, with the fields the consolidation engine reads or
writes.  `emailId`/`threadId` use the empty string for a missing value
(the source treats them with `x || y` falsy-coalescing); `deadline` and
`parentTaskId` are genuinely nullable.  Timestamps (`createdAt`,
`updatedAt`), free e-mail metadata (`from`, `subject`, `context`) and
`comments` are wall-clock or pass-through data no modelled claim reads,
and are omitted. -/
structure Task where
  id : String
  emailId : String
  threadId : String
  description : String
  deadline : Option String
  priority : String
  dependencies : List String
  status : String
  isParent : Bool
  isSubtask : Bool
  parentTaskId : Option String
  childTaskIds : List String
deriving DecidableEq, Repr

/-- A task with every field defaulted; concrete examples below override
the fields the exercised code path reads. -/
def baseTask : Task :=
  { id := "", emailId := "", threadId := "", description := "",
    deadline := none, priority := "", dependencies := [], status := "PENDING",
    isParent := false, isSubtask := false, parentTaskId := none,
    childTaskIds := [] }

/-- `Map.prototype.get` on an association list keyed by strings. -/
def mapGet {α : Type} : List (String × α) → String → Option α
  | [], _ => none
  | (k, v) :: rest, key => if k = key then some v else mapGet rest key

/-- `Map.prototype.set` on an association list keyed by strings: replace
the first binding of the key, or append a new one. -/
def mapSet {α : Type} : List (String × α) → String → α → List (String × α)
  | [], key, v => [(key, v)]
  | (k, u) :: rest, key, v =>
    if k = key then (key, v) :: rest else (k, u) :: mapSet rest key v

/-- Source `taskService.getPriorityValue`:
`const priorityMap = { HIGH: 0, MEDIUM: 1, LOW: 2 }; return priorityMap[priority] || 3`.
The JavaScript `||` returns its right operand whenever the left one is
falsy, and the number `0` is falsy, so a lookup that yields `0` (priority
`"HIGH"`) falls through to `3`.  The model reproduces this faithfully. -/
def getPriorityValue (priority : String) : Nat :=
  let lookup : Option Nat :=
    if priority = "HIGH" then some 0
    else if priority = "MEDIUM" then some 1
    else if priority = "LOW" then some 2
    else none
  match lookup with
  | some v => if v = 0 then 3 else v
  | none => 3

/-- Source `taskService.getHighestPriority`: `tasks.reduce(..., "LOW")`,
keeping the priority with the smaller `getPriorityValue`. -/
def getHighestPriority (tasks : List Task) : String :=
  tasks.foldl
    (fun highest task =>
      if getPriorityValue task.priority < getPriorityValue highest then task.priority
      else highest)
    "LOW"

/-- Gregorian leap-year test. -/
def isLeapYear (y : Nat) : Bool :=
  (y % 4 = 0 && y % 100 ≠ 0) || y % 400 = 0

/-- Number of days of month `m` of year `y`. -/
def daysInMonth (y m : Nat) : Nat :=
  if m = 2 then (if isLeapYear y then 29 else 28)
  else if m = 4 ∨ m = 6 ∨ m = 9 ∨ m = 11 then 30
  else 31

/-- Numeric value of a decimal digit character. -/
def digitVal (c : Char) : Nat := c.toNat - 48

/-- Model of `new Date(s).getTime()` together with the `isNaN` validity
check, for ISO `YYYY-MM-DD` date strings: `some code` for a valid
calendar date, where `code = y * 10000 + m * 100 + d`, and `none` for an
invalid date.  On this domain the code is order-isomorphic to the epoch
time JavaScript computes, so minima agree; date shapes beyond the ones
the engine's data carries are treated as invalid. -/
def parseDateCode (s : String) : Option Nat :=
  match s.toList with
  | [y1, y2, y3, y4, h1, m1, m2, h2, d1, d2] =>
    if (y1.isDigit && y2.isDigit && y3.isDigit && y4.isDigit &&
        h1 = '-' && m1.isDigit && m2.isDigit &&
        h2 = '-' && d1.isDigit && d2.isDigit) then
      let y := ((digitVal y1 * 10 + digitVal y2) * 10 + digitVal y3) * 10 + digitVal y4
      let m := digitVal m1 * 10 + digitVal m2
      let d := digitVal d1 * 10 + digitVal d2
      if 1 ≤ m && m ≤ 12 && 1 ≤ d && d ≤ daysInMonth y m then
        some (y * 10000 + m * 100 + d)
      else none
    else none
  | _ => none

/-- Decimal rendering of `n`, left-padded with zeros to width `w`. -/
def padNat (w n : Nat) : String :=
  let s := toString n
  String.mk (List.replicate (w - s.length) '0') ++ s

/-- Model of `new Date(t).toISOString()` for the date code `t` produced
by `parseDateCode`: a date-only ISO string parses to UTC midnight, whose
ISO rendering is the date followed by `T00:00:00.000Z`. -/
def renderIso (code : Nat) : String :=
  padNat 4 (code / 10000) ++ "-" ++ padNat 2 (code / 100 % 100) ++ "-" ++
    padNat 2 (code % 100) ++ "T00:00:00.000Z"

/-- The predicate of `getEarliestDeadline`'s deadline filter:
`d && !isNaN(new Date(d).getTime())` — a missing deadline and the empty
string are falsy, an unparseable date is `NaN`. -/
def validDeadlineFilter (d : Option String) : Option String :=
  match d with
  | none => none
  | some s => if s ≠ "" && (parseDateCode s).isSome then some s else none

/-- The `validDeadlines` intermediate of `taskService.getEarliestDeadline`:
`tasks.map(t => t.deadline).filter(d => d && !isNaN(new Date(d).getTime()))`. -/
def validDeadlines (tasks : List Task) : List String :=
  (tasks.map (fun t => t.deadline)).filterMap validDeadlineFilter

/-- Source `taskService.getEarliestDeadline`: `null` when no valid
deadline exists, otherwise the ISO rendering of the minimum of the valid
deadlines' times.  (The source's final validity re-check always passes on
this path, and the surrounding `try` never throws: every step is total.) -/
def getEarliestDeadline (tasks : List Task) : Option String :=
  match (validDeadlines tasks).filterMap parseDateCode with
  | [] => none
  | c :: cs => some (renderIso (cs.foldl Nat.min c))

/-- Source `taskService.createParentTask`.  `parentDescription` is the
outcome of the `aiService.generateParentTaskDescription` call; on
rejection the `catch` branch builds the generic fallback task.  `freshId`
stands for the nondeterministic id `createTask` assigns
(`task_${Date.now()}_…`), which no modelled claim inspects. -/
def createParentTask (freshId : String) (parentDescription : Except Unit String)
    (taskGroup : List Task) : Task :=
  match parentDescription with
  | .ok d =>
    { baseTask with
      id := freshId
      description := d
      priority := getHighestPriority taskGroup
      deadline := getEarliestDeadline taskGroup
      isParent := true
      childTaskIds := taskGroup.map (fun t => t.id)
      status := "PENDING" }
  | .error _ =>
    { baseTask with
      id := freshId
      description := "Combined task group (" ++ toString taskGroup.length ++ " tasks)"
      priority := "MEDIUM"
      deadline := none
      isParent := true
      childTaskIds := taskGroup.map (fun t => t.id)
      status := "PENDING" }

/-- Source `aiService.generateTaskId`.  The SHA-256 hex digest is an
external pure function of the joined component string; it is passed in as
the parameter `sha256hex`, so every theorem below holds for the real
digest function.  `task.threadId || ""` and `task.priority || ""` are the
identity on strings; `task.deadline || ""` is `Option.getD`. -/
def generateTaskId (sha256hex : String → String) (task : Task) : String :=
  let normalizedDescription := collapseWsStr (jsTrim (jsToLower task.description))
  let components : List String :=
    [task.threadId, normalizedDescription, task.deadline.getD "", task.priority]
  let hash := sha256hex (String.intercalate "::" components)
  "task_" ++ String.mk (hash.toList.take 12)

/-- The normalization `generateTaskId` applies to a description:
lower-case, trim, collapse whitespace runs to single spaces. -/
def normalizeDescriptionForId (s : String) : String :=
  collapseWsStr (jsTrim (jsToLower s))

/-- A row of the durable store's `tasks` table, restricted to the columns
the duplicate-suppression path reads or writes (`from_address`,
`subject`, the JSON blobs and the timestamps are pass-through).  A SQL
`NULL` `thread_id` is `none`. -/
structure DbRow where
  id : String
  thread_id : Option String
  description : String
  deadline : Option String
  priority : String
  status : String
deriving DecidableEq, Repr

/-- Source `dbService.getTasksByThreadId`:
`SELECT * FROM tasks WHERE thread_id = ? AND status != 'COMPLETED'`.
SQL `=` against a `NULL` column value never matches. -/
def getTasksByThreadId (db : List DbRow) (threadId : String) : List DbRow :=
  db.filter (fun r => r.thread_id = some threadId ∧ r.status ≠ "COMPLETED")

/-- The `INSERT INTO tasks … VALUES …` of `dbService.handleTaskCreated`.
`task.threadId || null` stores `NULL` for the empty (falsy) thread id.
An `id` primary-key violation makes `db.run` reject; the surrounding
`catch` swallows the error, leaving the table unchanged. -/
def dbInsertTask (db : List DbRow) (task : Task) : List DbRow :=
  if db.any (fun r => r.id = task.id) then db
  else
    db ++ [{ id := task.id
             thread_id := if task.threadId = "" then none else some task.threadId
             description := task.description
             deadline := task.deadline
             priority := task.priority
             status := task.status }]

/-- Source `dbService.handleTaskCreated`, the `task:created` listener
that enforces duplicate suppression: skip the insert when a non-completed
task of the same thread has the same lower-cased, trimmed description. -/
def handleTaskCreated (db : List DbRow) (task : Task) : List DbRow :=
  let existingTasks := getTasksByThreadId db task.threadId
  let dup := existingTasks.any
    (fun existingTask =>
      jsTrim (jsToLower existingTask.description) = jsTrim (jsToLower task.description))
  if dup then db else dbInsertTask db task

/-- Number of non-completed rows of thread `t` whose lower-cased, trimmed
description is `nd`. -/
def threadNormCount (db : List DbRow) (t : String) (nd : String) : Nat :=
  (db.filter
    (fun r => r.thread_id = some t ∧ r.status ≠ "COMPLETED" ∧
      jsTrim (jsToLower r.description) = nd)).length

/-- The in-memory task index `taskService.tasks` (`Map` from task id to
task). -/
abbrev Store := List (String × Task)

/-- The field merge `taskService.updateTask` performs:
`{...task, ...updatedData, emailId: updatedData.emailId || …, threadId: updatedData.threadId || …}`.
All modelled fields are present on `updatedData`, so the spread keeps
`upd` except for the falsy-coalesced `emailId`/`threadId` fallbacks. -/
def mergeUpdate (old upd : Task) : Task :=
  { upd with
    emailId := if upd.emailId = "" then old.emailId else upd.emailId
    threadId := if upd.threadId = "" then old.threadId else upd.threadId }

/-- Source `taskService.updateTask` (as invoked during propagation, where
the durable store holds nothing the in-memory index does not): a task id
missing from the index misses the database too, so updating it throws
(`none`); otherwise the merged task replaces the indexed one. -/
def updateTask (store : Store) (taskId : String) (upd : Task) : Option Store :=
  match mapGet store taskId with
  | none => none
  | some old => some (mapSet store taskId (mergeUpdate old upd))

/-- The inner loop of `taskService.prioritizeTasks` for one `task` of the
batch: resolve its dependency strings against the batch by exact
description match and escalate each match whose `getPriorityValue` is
greater (less urgent under the map's intent) than the task's own. -/
def propagateDeps (task : Task) : List Task → Store → Option Store
  | [], store => some store
  | depTask :: rest, store =>
    if getPriorityValue depTask.priority > getPriorityValue task.priority then
      match updateTask store depTask.id { depTask with priority := task.priority } with
      | none => none
      | some store2 => propagateDeps task rest store2
    else propagateDeps task rest store

/-- One iteration of the outer `for` loop of `prioritizeTasks`. -/
def propagateOne (allTasks : List Task) (store : Store) (task : Task) : Option Store :=
  if task.dependencies.length > 0 then
    propagateDeps task
      (allTasks.filter (fun t => task.dependencies.contains t.description)) store
  else some store

/-- The outer `for` loop of `prioritizeTasks` over the flattened batch. -/
def propagateAll (allTasks : List Task) : List Task → Store → Option Store
  | [], store => some store
  | task :: rest, store =>
    match propagateOne allTasks store task with
    | none => none
    | some store2 => propagateAll allTasks rest store2

/-- Source `taskService.prioritizeTasks` run against the in-memory task
index: `allTasks = taskExtractionResults.flatMap(r => r.tasks)`, then the
dependency-escalation pass.  The batch objects themselves are never
mutated (`updateTask` builds a fresh object), so each run reads the same
batch priorities. -/
def prioritizeTasks (taskExtractionResults : List (List Task)) (store : Store) :
    Option Store :=
  let allTasks := taskExtractionResults.flatMap (fun r => r)
  propagateAll allTasks allTasks store

/-- Priority recorded in the task index for a given id. -/
def storedPriority (store : Store) (taskId : String) : Option String :=
  (mapGet store taskId).map (fun t => t.priority)

/-- Source `taskService.getSimilarityCacheKey`:
`[taskId1, taskId2].sort().join("_")`. -/
def getSimilarityCacheKey (taskId1 taskId2 : String) : String :=
  if taskId1 ≤ taskId2 then taskId1 ++ "_" ++ taskId2
  else taskId2 ++ "_" ++ taskId1

/-- One queued entry of the `comparisons` array of `groupSimilarTasks`:
the cache key of the pair plus the two descriptions handed to
`aiService.compareTaskSimilarity`. -/
structure PairCmp where
  key : String
  desc1 : String
  desc2 : String
deriving DecidableEq, Repr

/-- The inner `j` loop of `groupSimilarTasks`'s pre-computation phase for
the anchor task: copy already-cached pairs into `similarities` and queue
the rest in `comparisons`, in scan order. -/
def collectForAnchor (anchor : Task) :
    List Task → List String → List (String × ℚ) → List (String × ℚ) →
    List (String × ℚ) × List PairCmp
  | [], _, _, sims => (sims, [])
  | otherTask :: rest, processed, cache, sims =>
    if processed.contains otherTask.id then
      collectForAnchor anchor rest processed cache sims
    else
      let cacheKey := getSimilarityCacheKey anchor.id otherTask.id
      match mapGet cache cacheKey with
      | some v => collectForAnchor anchor rest processed cache (mapSet sims cacheKey v)
      | none =>
        let (sims2, comps) := collectForAnchor anchor rest processed cache sims
        (sims2, ⟨cacheKey, anchor.description, otherTask.description⟩ :: comps)

/-- `Promise.all(batch.map(...))` over one slice of queued comparisons:
the pairs' scores keyed by cache key, or the rejection if any comparator
call in the slice rejects (in which case none of the slice's results is
stored). -/
def runBatch (compare : String → String → Except Unit ℚ) (batch : List PairCmp) :
    Except Unit (List (String × ℚ)) :=
  batch.mapM (fun p => (compare p.desc1 p.desc2).map (fun q => (p.key, q)))

/-- Store a resolved slice's results into a similarity map. -/
def writeAll (m : List (String × ℚ)) (results : List (String × ℚ)) :
    List (String × ℚ) :=
  results.foldl (fun acc r => mapSet acc r.1 r.2) m

/-- The batched comparator calls of the pre-computation phase: slices of
five comparisons (`BATCH_SIZE = 5`, spelt as five head patterns so the
recursion is structural) go through `Promise.all`, and each resolved
slice's results are written to the cache and to `similarities` before the
next slice starts. -/
def processBatches (compare : String → String → Except Unit ℚ) :
    List PairCmp → List (String × ℚ) → List (String × ℚ) →
    Except Unit (List (String × ℚ) × List (String × ℚ))
  | [], cache, sims => .ok (cache, sims)
  | p1 :: p2 :: p3 :: p4 :: p5 :: rest, cache, sims =>
    match runBatch compare [p1, p2, p3, p4, p5] with
    | .error e => .error e
    | .ok results =>
      processBatches compare rest (writeAll cache results) (writeAll sims results)
  | ps, cache, sims =>
    match runBatch compare ps with
    | .error e => .error e
    | .ok results => .ok (writeAll cache results, writeAll sims results)

/-- The full pre-computation phase: the outer `i` loop over the batch.
`processed` is the `processedTasks` set, which nothing mutates before the
grouping phase, so the skips never fire; they are kept for fidelity. -/
def precomputeSimilarities (compare : String → String → Except Unit ℚ) :
    List Task → List String → List (String × ℚ) → List (String × ℚ) →
    Except Unit (List (String × ℚ) × List (String × ℚ))
  | [], _, cache, sims => .ok (cache, sims)
  | task :: rest, processed, cache, sims =>
    if processed.contains task.id then
      precomputeSimilarities compare rest processed cache sims
    else
      let (sims2, comps) := collectForAnchor task rest processed cache sims
      match processBatches compare comps cache sims2 with
      | .error e => .error e
      | .ok (cache2, sims3) => precomputeSimilarities compare rest processed cache2 sims3

/-- The grouping phase of `groupSimilarTasks`: anchor-first greedy
linking over the pre-computed similarity map.  A missing similarity entry
compares as `undefined > 0.8`, which is false. -/
def groupLoop (allTasks : List Task) (sims : List (String × ℚ)) :
    List Task → List String → List (List Task)
  | [], _ => []
  | task :: rest, processed =>
    if processed.contains task.id then groupLoop allTasks sims rest processed
    else
      let similarTasks := allTasks.filter
        (fun otherTask =>
          if otherTask.id = task.id ∨ processed.contains otherTask.id then false
          else
            match mapGet sims (getSimilarityCacheKey task.id otherTask.id) with
            | some q => q > 4/5
            | none => false)
      if similarTasks.length > 0 then
        (task :: similarTasks) ::
          groupLoop allTasks sims rest (processed ++ task.id :: similarTasks.map (fun t => t.id))
      else
        [task] :: groupLoop allTasks sims rest (processed ++ [task.id])

/-- Errors a JavaScript function can surface: the error the `try` block
caught, or a `ReferenceError` raised while running the handler itself. -/
inductive JsErr where
  | caught : JsErr
  | referenceError : JsErr
deriving DecidableEq, Repr

/-- Source `taskService.groupSimilarTasks`, threading the instance-level
similarity cache.  The `catch` handler executes
`return allTasks.map((task) => [task])`, but `allTasks` is a `const`
declared inside the `try` block and is not in scope in the `catch` block,
so the handler itself throws a `ReferenceError` instead of returning the
singleton fallback. -/
def groupSimilarTasks (compare : String → String → Except Unit ℚ)
    (taskExtractionResults : List (List Task)) (cache : List (String × ℚ)) :
    Except JsErr (List (List Task) × List (String × ℚ)) :=
  let allTasks := taskExtractionResults.flatMap (fun r => r)
  match precomputeSimilarities compare allTasks [] cache [] with
  | .error _ => .error JsErr.referenceError
  | .ok (cache2, sims) => .ok (groupLoop allTasks sims allTasks [], cache2)

/-- The store write one dependency comparison of `prioritizeTasks` would
perform: `some (id, merged-task-argument)` when the escalation condition
holds, `none` otherwise.  Proof-layer characterization; the executable
model is `propagateDeps`. -/
def writeOfDep (task depTask : Task) : Option (String × Task) :=
  if getPriorityValue depTask.priority > getPriorityValue task.priority then
    some (depTask.id, { depTask with priority := task.priority })
  else none

/-- All store writes one outer-loop iteration of `prioritizeTasks`
performs, in order. -/
def taskWrites (allTasks : List Task) (task : Task) : List (String × Task) :=
  if task.dependencies.length > 0 then
    (allTasks.filter (fun t => task.dependencies.contains t.description)).filterMap
      (writeOfDep task)
  else []

/-- All store writes a whole `prioritizeTasks` run performs, in order.
They depend only on the batch, never on the store: the batch objects are
not mutated by `updateTask`. -/
def batchWrites (allTasks : List Task) : List Task → List (String × Task)
  | [] => []
  | task :: rest => taskWrites allTasks task ++ batchWrites allTasks rest

/-- Apply a list of `updateTask` writes to the store in order, failing as
`updateTask` does. -/
def applyWrites : List (String × Task) → Store → Option Store
  | [], store => some store
  | (i, t) :: ws, store =>
    match updateTask store i t with
    | none => none
    | some store2 => applyWrites ws store2

/-- The last write a write list performs against a given id, if any
(later writes win). -/
def lastWrite : List (String × Task) → String → Option Task
  | [], _ => none
  | (i, t) :: ws, j =>
    match lastWrite ws j with
    | some t2 => some t2
    | none => if i = j then some t else none

/-- EXAMPLE DATA.  A dependent task whose prerequisite (matched by the
description "send report") currently carries priority `HIGH`. -/
def exT : Task :=
  { baseTask with
    id := "T"
    emailId := "e1"
    threadId := "th1"
    description := "review budget"
    priority := "MEDIUM"
    dependencies := ["send report"] }

/-- EXAMPLE DATA.  The `HIGH`-priority prerequisite of `exT`. -/
def exD : Task :=
  { baseTask with
    id := "D"
    emailId := "e1"
    threadId := "th1"
    description := "send report"
    priority := "HIGH" }

/-- EXAMPLE DATA.  Task index holding `exT` and `exD`. -/
def exStore0 : Store := [("T", exT), ("D", exD)]

/-- EXAMPLE DATA.  The task index `prioritizeTasks [[exT, exD]]` produces
from `exStore0`: the prerequisite `exD` rewritten to priority
`MEDIUM`. -/
def exStore1 : Store := [("T", exT), ("D", { exD with priority := "MEDIUM" })]

/-- EXAMPLE DATA.  Three-task batch carrying the priorities
`[MEDIUM, LOW, HIGH]` of the spec's parent-synthesis example. -/
def exPriorityGroup : List Task :=
  [{ baseTask with id := "m", priority := "MEDIUM" },
   { baseTask with id := "l", priority := "LOW" },
   { baseTask with id := "h", priority := "HIGH" }]

/-- EXAMPLE DATA.  Three-task cluster carrying the deadlines
`["2024-01-10", null, "2024-01-05"]` of the spec's parent-synthesis
example. -/
def exDeadlineGroup : List Task :=
  [{ baseTask with id := "a", deadline := some "2024-01-10" },
   { baseTask with id := "b", deadline := none },
   { baseTask with id := "c", deadline := some "2024-01-05" }]

/-- EXAMPLE DATA.  Four pairwise-distinct tasks for the clustering
fallback scenario. -/
def exClusterBatch : List Task :=
  [{ baseTask with id := "g1", description := "t one" },
   { baseTask with id := "g2", description := "t two" },
   { baseTask with id := "g3", description := "t three" },
   { baseTask with id := "g4", description := "t four" }]

/-- EXAMPLE DATA.  A comparator whose every call rejects (classifier
unavailable). -/
def exFailingCompare : String → String → Except Unit ℚ := fun _ _ => .error ()

/-- EXAMPLE DATA.  First creation attempt of the duplicate-suppression
scenario. -/
def exA : Task :=
  { baseTask with
    id := "a1"
    threadId := "th1"
    description := "Send report"
    status := "PENDING" }

/-- EXAMPLE DATA.  Second creation attempt: same thread, description
equal to `exA`'s after lower-casing and trimming. -/
def exB : Task :=
  { baseTask with
    id := "b1"
    threadId := "th1"
    description := "  SEND REPORT"
    status := "PENDING" }

/-- EXAMPLE DATA.  `exA` with the empty (falsy) thread id. -/
def exA0 : Task := { exA with threadId := "" }

/-- EXAMPLE DATA.  `exB` with the empty (falsy) thread id. -/
def exB0 : Task := { exB with threadId := "" }

theorem mapGet_mapSet {α : Type} (m : List (String × α)) (k j : String) (v : α) :
    mapGet (mapSet m k v) j = if k = j then some v else mapGet m j := by
  induction m with
  | nil => simp [mapSet, mapGet]
  | cons p rest ih =>
    obtain ⟨a, b⟩ := p
    by_cases hak : a = k
    · subst hak
      by_cases haj : a = j <;> simp [mapSet, mapGet, haj]
    · by_cases haj : a = j
      · subst haj
        have hkj : ¬k = a := fun h => hak h.symm
        simp [mapSet, mapGet, hak, hkj]
      · simp [mapSet, mapGet, hak, haj, ih]

theorem updateTask_dom {store store2 : Store} {i : String} {t : Task}
    (h : updateTask store i t = some store2) (j : String) :
    (mapGet store2 j).isSome = (mapGet store j).isSome := by
  unfold updateTask at h
  cases hg : mapGet store i with
  | none => rw [hg] at h; exact absurd h (by simp)
  | some old =>
    rw [hg] at h
    injection h with h
    subst h
    rw [mapGet_mapSet]
    by_cases hij : i = j
    · subst hij; simp [hg]
    · simp [hij]

theorem updateTask_storedPriority {store store2 : Store} {i : String} {t : Task}
    (h : updateTask store i t = some store2) (j : String) :
    storedPriority store2 j = if i = j then some t.priority else storedPriority store j := by
  unfold updateTask at h
  cases hg : mapGet store i with
  | none => rw [hg] at h; exact absurd h (by simp)
  | some old =>
    rw [hg] at h
    injection h with h
    subst h
    unfold storedPriority
    rw [mapGet_mapSet]
    by_cases hij : i = j
    · subst hij; simp [mergeUpdate]
    · simp [hij]

theorem updateTask_isSome {store : Store} {i : String} (t : Task)
    (h : (mapGet store i).isSome) : (updateTask store i t).isSome := by
  unfold updateTask
  cases hg : mapGet store i with
  | none => rw [hg] at h; exact absurd h (by simp)
  | some old => simp

theorem applyWrites_dom :
    ∀ (ws : List (String × Task)) (s s2 : Store), applyWrites ws s = some s2 →
      ∀ j, (mapGet s2 j).isSome = (mapGet s j).isSome := by
  intro ws
  induction ws with
  | nil =>
    intro s s2 h j
    unfold applyWrites at h
    injection h with h
    subst h
    rfl
  | cons w ws ih =>
    intro s s2 h j
    obtain ⟨i, t⟩ := w
    unfold applyWrites at h
    cases hu : updateTask s i t with
    | none => rw [hu] at h; exact absurd h (by simp)
    | some s1 =>
      rw [hu] at h
      rw [ih s1 s2 h j, updateTask_dom hu j]

theorem applyWrites_storedPriority :
    ∀ (ws : List (String × Task)) (s s2 : Store), applyWrites ws s = some s2 →
      ∀ j, storedPriority s2 j =
        match lastWrite ws j with
        | some t => some t.priority
        | none => storedPriority s j := by
  intro ws
  induction ws with
  | nil =>
    intro s s2 h j
    unfold applyWrites at h
    injection h with h
    subst h
    rfl
  | cons w ws ih =>
    intro s s2 h j
    obtain ⟨i, t⟩ := w
    unfold applyWrites at h
    cases hu : updateTask s i t with
    | none => rw [hu] at h; exact absurd h (by simp)
    | some s1 =>
      rw [hu] at h
      have h1 := ih s1 s2 h j
      have h2 := updateTask_storedPriority hu j
      unfold lastWrite
      cases hl : lastWrite ws j with
      | some t2 => rw [hl] at h1; exact h1
      | none =>
        rw [hl] at h1
        rw [h1, h2]
        by_cases hij : i = j <;> simp [hij]

theorem applyWrites_again :
    ∀ (ws : List (String × Task)) (s s2 u : Store), applyWrites ws s = some s2 →
      (∀ j, (mapGet u j).isSome = (mapGet s j).isSome) →
      ∃ u2, applyWrites ws u = some u2 := by
  intro ws
  induction ws with
  | nil => intro s s2 u _ _; exact ⟨u, rfl⟩
  | cons w ws ih =>
    intro s s2 u h hdom
    obtain ⟨i, t⟩ := w
    unfold applyWrites at h
    cases hu : updateTask s i t with
    | none => rw [hu] at h; exact absurd h (by simp)
    | some s1 =>
      rw [hu] at h
      have hsi : (mapGet s i).isSome := by
        unfold updateTask at hu
        cases hg : mapGet s i with
        | none => rw [hg] at hu; exact absurd hu (by simp)
        | some old => simp
      have hui : (mapGet u i).isSome := by rw [hdom i]; exact hsi
      obtain ⟨u1, hu1⟩ := Option.isSome_iff_exists.mp (updateTask_isSome t hui)
      have hdom1 : ∀ j, (mapGet u1 j).isSome = (mapGet s1 j).isSome := by
        intro j
        rw [updateTask_dom hu1 j, hdom j, ← updateTask_dom hu j]
      obtain ⟨u2, hu2⟩ := ih s1 s2 u1 h hdom1
      refine ⟨u2, ?_⟩
      unfold applyWrites
      rw [hu1]
      exact hu2

theorem propagateDeps_eq_applyWrites (task : Task) :
    ∀ (deps : List Task) (store : Store),
      propagateDeps task deps store =
        applyWrites (deps.filterMap (writeOfDep task)) store := by
  intro deps
  induction deps with
  | nil => intro store; rfl
  | cons dep rest ih =>
    intro store
    by_cases h : getPriorityValue dep.priority > getPriorityValue task.priority
    · simp only [propagateDeps, if_pos h, List.filterMap_cons, writeOfDep, h, ite_true,
        applyWrites]
      cases updateTask store dep.id { dep with priority := task.priority } with
      | none => rfl
      | some s2 => exact ih s2
    · simp only [propagateDeps, if_neg h, List.filterMap_cons, writeOfDep, h, ite_false]
      exact ih store

theorem propagateOne_eq_applyWrites (allTasks : List Task) (store : Store) (task : Task) :
    propagateOne allTasks store task = applyWrites (taskWrites allTasks task) store := by
  by_cases h : task.dependencies.length > 0
  · simp only [propagateOne, if_pos h, taskWrites]
    exact propagateDeps_eq_applyWrites task _ store
  · simp only [propagateOne, if_neg h, taskWrites]
    rfl

theorem applyWrites_append (ws1 ws2 : List (String × Task)) :
    ∀ store, applyWrites (ws1 ++ ws2) store =
      match applyWrites ws1 store with
      | none => none
      | some s2 => applyWrites ws2 s2 := by
  induction ws1 with
  | nil => intro store; rfl
  | cons w ws ih =>
    intro store
    obtain ⟨i, t⟩ := w
    simp only [List.cons_append, applyWrites]
    cases updateTask store i t with
    | none => rfl
    | some s2 => exact ih s2

theorem propagateAll_eq_applyWrites (allTasks : List Task) :
    ∀ (iter : List Task) (store : Store),
      propagateAll allTasks iter store = applyWrites (batchWrites allTasks iter) store := by
  intro iter
  induction iter with
  | nil => intro store; rfl
  | cons task rest ih =>
    intro store
    simp only [propagateAll, batchWrites, applyWrites_append, propagateOne_eq_applyWrites]
    cases applyWrites (taskWrites allTasks task) store with
    | none => rfl
    | some s2 => exact ih s2

/-- Claim C3: running priority propagation a second time on the same
batch, after a first run has completed, changes no task's priority in the
task store: the second run completes and every task's stored priority
after it equals its stored priority after the first run.  The escalation
conditions read only the immutable batch objects, so the second run
performs exactly the same store writes as the first. -/
theorem prioritizeTasks_idempotent (results : List (List Task)) (s0 s1 : Store)
    (h : prioritizeTasks results s0 = some s1) :
    ∃ s2, prioritizeTasks results s1 = some s2 ∧
      ∀ taskId, storedPriority s2 taskId = storedPriority s1 taskId := by
  unfold prioritizeTasks at h ⊢
  rw [propagateAll_eq_applyWrites] at h ⊢
  obtain ⟨s2, h2⟩ :=
    applyWrites_again _ s0 s1 s1 h (fun j => applyWrites_dom _ s0 s1 h j)
  refine ⟨s2, h2, fun taskId => ?_⟩
  have p2 := applyWrites_storedPriority _ s1 s2 h2 taskId
  have p1 := applyWrites_storedPriority _ s0 s1 h taskId
  cases hl :
      lastWrite
        (batchWrites (results.flatMap fun r => r) (results.flatMap fun r => r)) taskId with
  | some t =>
    rw [hl] at p1 p2
    rw [p1, p2]
  | none =>
    rw [hl] at p2
    exact p2

/-- Claim C1 (refuted by evaluation): on the two-task batch where
`exT` (priority `MEDIUM`) declares the dependency "send report" and the
matching prerequisite `exD` currently has priority `HIGH`, the
propagation pass rewrites `exD`'s stored priority from `HIGH` to
`MEDIUM` — a downgrade away from `HIGH`.  The cause is
`getPriorityValue`'s `priorityMap[priority] || 3`, which maps the falsy
rank `0` of `HIGH` to `3`, making `HIGH` compare as the least urgent
rank. -/
theorem prioritization_downgrades_high_prerequisite :
    prioritizeTasks [[exT, exD]] exStore0 = some exStore1 ∧
    storedPriority exStore0 "D" = some "HIGH" ∧
    storedPriority exStore1 "D" = some "MEDIUM" := by decide

/-- Claim C9 (refuted by evaluation): for member priorities
`[MEDIUM, LOW, HIGH]` the synthesized parent priority computed by
`getHighestPriority` is `MEDIUM`, not `HIGH`: `priorityMap[priority] || 3`
sends `HIGH` to rank `3`, below `LOW`. -/
theorem getHighestPriority_mixed_returns_medium :
    getHighestPriority exPriorityGroup = "MEDIUM" ∧
    getHighestPriority exPriorityGroup ≠ "HIGH" := by decide

/-- Claim C2 (refuted by evaluation): when every comparator call rejects
during clustering of a batch of four tasks, `groupSimilarTasks` does not
return four singleton groups — its `catch` handler reads the `try`-scoped
`allTasks` binding, which is out of scope there, so the call surfaces a
`ReferenceError` instead of the documented singleton fallback. -/
theorem clustering_fallback_raises_referenceError :
    groupSimilarTasks exFailingCompare [exClusterBatch] [] =
      .error JsErr.referenceError ∧
    exClusterBatch.length = 4 := ⟨rfl, rfl⟩

/-- Witness for `prioritizeTasks_idempotent` at the concrete two-task
batch: the first run produces `exStore1`, and the second run over
`exStore1` reproduces every stored priority. -/
theorem prioritizeTasks_idempotent_witness :
    prioritizeTasks [[exT, exD]] exStore0 = some exStore1 ∧
    ∃ s2, prioritizeTasks [[exT, exD]] exStore1 = some s2 ∧
      ∀ taskId, storedPriority s2 taskId = storedPriority exStore1 taskId :=
  ⟨by decide, prioritizeTasks_idempotent [[exT, exD]] exStore0 exStore1 (by decide)⟩

/-- Claim C6: a quick-filter estimate strictly below `0.3` makes the
pairwise comparison return `0`, and one strictly above `0.9` makes it
return `1`, in both cases without invoking the semantic classifier
(invocation flag `false`), whatever the classifier would have
answered. -/
theorem comparator_short_circuit (c : ClassifierOutcome) (d1 d2 : String) :
    (quickStringComparison d1 d2 < 3/10 → compareTaskSimilarity c d1 d2 = (0, false)) ∧
    (quickStringComparison d1 d2 > 9/10 → compareTaskSimilarity c d1 d2 = (1, false)) := by
  constructor
  · intro h
    simp only [compareTaskSimilarity, if_pos h]
  · intro h
    have h3 : ¬ quickStringComparison d1 d2 < 3/10 := by
      intro hlt
      have h9 : (3 : ℚ)/10 < 9/10 := by norm_num
      linarith
    simp only [compareTaskSimilarity, if_neg h3, if_pos h]

/-- Witness for `comparator_short_circuit`: the disjoint pair
("alpha beta", "gamma delta") has estimate `0 < 0.3` and yields
`(0, false)`; the identical pair ("same task", "same task") has estimate
`1 > 0.9` and yields `(1, false)` — the classifier outcome supplied is
never consulted. -/
theorem comparator_short_circuit_witness :
    (quickStringComparison "alpha beta" "gamma delta" < 3/10 ∧
      compareTaskSimilarity (.ok (some (1/2))) "alpha beta" "gamma delta" = (0, false)) ∧
    (quickStringComparison "same task" "same task" > 9/10 ∧
      compareTaskSimilarity (.ok (some (1/2))) "same task" "same task" = (1, false)) :=
  ⟨⟨by with_unfolding_all decide,
      (comparator_short_circuit _ _ _).1 (by with_unfolding_all decide)⟩,
    ⟨by with_unfolding_all decide,
      (comparator_short_circuit _ _ _).2 (by with_unfolding_all decide)⟩⟩

/-- Claim C7: whenever the classifier call rejects or yields a score that
is not a number in `[0, 1]`, and the quick-filter estimate did not
short-circuit the call, `compareTaskSimilarity` returns the quick-filter
estimate for the pair — an ordinary return value, so the failure never
propagates to the caller. -/
theorem comparator_classifier_fallback (c : ClassifierOutcome) (d1 d2 : String)
    (hf : classifierFailed c)
    (h1 : ¬ quickStringComparison d1 d2 < 3/10)
    (h2 : ¬ quickStringComparison d1 d2 > 9/10) :
    compareTaskSimilarity c d1 d2 = (quickStringComparison d1 d2, true) := by
  rcases hf with hc | hc | ⟨q, hc, hq⟩ <;> subst hc
  · simp only [compareTaskSimilarity, if_neg h1, if_neg h2]
  · simp only [compareTaskSimilarity, if_neg h1, if_neg h2]
  · simp only [compareTaskSimilarity, if_neg h1, if_neg h2, if_pos hq]

/-- Witness for `comparator_classifier_fallback`: the pair
("alpha beta", "alpha gamma") has estimate `1/3`, inside `[0.3, 0.9]`,
and a rejecting classifier makes the comparison return that estimate. -/
theorem comparator_classifier_fallback_witness :
    classifierFailed (.error ()) ∧
    ¬ quickStringComparison "alpha beta" "alpha gamma" < 3/10 ∧
    ¬ quickStringComparison "alpha beta" "alpha gamma" > 9/10 ∧
    compareTaskSimilarity (.error ()) "alpha beta" "alpha gamma" =
      (quickStringComparison "alpha beta" "alpha gamma", true) :=
  ⟨Or.inl rfl, by with_unfolding_all decide, by with_unfolding_all decide,
    comparator_classifier_fallback _ _ _ (Or.inl rfl)
      (by with_unfolding_all decide) (by with_unfolding_all decide)⟩

/-- Claim C8: `generateTaskId` is a pure function of thread id,
normalized description, deadline and priority, so two tasks agreeing on
thread id, deadline and priority whose descriptions agree after
lower-casing, trimming and whitespace collapsing receive the same id,
for every digest function — in particular re-extracting the same content
from the same thread reproduces the id. -/
theorem generateTaskId_normalization_invariant (sha256hex : String → String)
    (t1 t2 : Task)
    (hth : t1.threadId = t2.threadId) (hdl : t1.deadline = t2.deadline)
    (hpr : t1.priority = t2.priority)
    (hdesc : normalizeDescriptionForId t1.description =
      normalizeDescriptionForId t2.description) :
    generateTaskId sha256hex t1 = generateTaskId sha256hex t2 := by
  unfold normalizeDescriptionForId at hdesc
  unfold generateTaskId
  rw [hth, hdl, hpr, hdesc]

/-- EXAMPLE DATA.  A task whose description carries stray case and
whitespace. -/
def exId1 : Task :=
  { baseTask with
    threadId := "th"
    description := "Hello   World "
    priority := "HIGH" }

/-- EXAMPLE DATA.  Same normalized description as `exId1`, same thread,
deadline and priority. -/
def exId2 : Task :=
  { baseTask with
    threadId := "th"
    description := " hello world"
    priority := "HIGH" }

/-- Witness for `generateTaskId_normalization_invariant`: the two
descriptions "Hello   World " and " hello world" normalize identically,
so the generated ids coincide (digest instantiated with the identity). -/
theorem generateTaskId_normalization_invariant_witness :
    normalizeDescriptionForId exId1.description =
      normalizeDescriptionForId exId2.description ∧
    generateTaskId (fun s => s) exId1 = generateTaskId (fun s => s) exId2 :=
  ⟨by decide,
    generateTaskId_normalization_invariant (fun s => s) exId1 exId2 rfl rfl rfl (by decide)⟩

theorem splitWsAux_ne_nil (cs : List Char) : ∀ acc, splitWsAux cs acc ≠ [] := by
  induction cs with
  | nil =>
    intro acc
    cases acc <;> simp [splitWsAux]
  | cons c rest ih =>
    intro acc
    cases acc with
    | some a =>
      by_cases h : isWsChar c <;> simp only [splitWsAux, h, if_true, if_false]
      · simp
      · exact ih _
    | none =>
      by_cases h : isWsChar c <;> simp only [splitWsAux, h, if_true, if_false]
      · exact ih _
      · exact ih _

/-- Claim C10: `quickStringComparison` is total — the deduplicated union
of the two token lists is never empty (splitting any string yields at
least one token), so the Jaccard denominator is nonzero — and two inputs
that both normalize to the empty string compare as exactly `1`. -/
theorem quickStringComparison_total (s1 s2 : String) :
    ((jsSplitWs (normalizeForCompare s1)).dedup ++
      (jsSplitWs (normalizeForCompare s2)).dedup).dedup.length ≠ 0 ∧
    (normalizeForCompare s1 = "" → normalizeForCompare s2 = "" →
      quickStringComparison s1 s2 = 1) := by
  constructor
  · have h1 : jsSplitWs (normalizeForCompare s1) ≠ [] := by
      unfold jsSplitWs
      intro h
      exact splitWsAux_ne_nil _ (some []) (List.map_eq_nil_iff.mp h)
    have h2 : (jsSplitWs (normalizeForCompare s1)).dedup ≠ [] := by
      intro h
      exact h1 ((List.dedup_eq_nil _).mp h)
    have h3 : (jsSplitWs (normalizeForCompare s1)).dedup ++
        (jsSplitWs (normalizeForCompare s2)).dedup ≠ [] := by
      intro h
      exact h2 (List.append_eq_nil.mp h).1
    intro h
    exact h3 ((List.dedup_eq_nil _).mp (List.length_eq_zero.mp h))
  · intro h1 h2
    simp only [quickStringComparison]
    rw [h1, h2]
    with_unfolding_all decide

/-- Witness for `quickStringComparison_total`: the punctuation-only
descriptions "!!!" and "???" both normalize to the empty string, and
their similarity is exactly `1`. -/
theorem quickStringComparison_total_witness :
    normalizeForCompare "!!!" = "" ∧ normalizeForCompare "???" = "" ∧
    quickStringComparison "!!!" "???" = 1 :=
  ⟨by decide, by decide,
    (quickStringComparison_total "!!!" "???").2 (by decide) (by decide)⟩

theorem foldl_min_le_init (cs : List Nat) : ∀ c, cs.foldl Nat.min c ≤ c := by
  induction cs with
  | nil => intro c; exact Nat.le_refl c
  | cons d cs ih =>
    intro c
    exact Nat.le_trans (ih (Nat.min c d)) (Nat.min_le_left c d)

theorem foldl_min_le_mem (cs : List Nat) : ∀ c x, x ∈ cs → cs.foldl Nat.min c ≤ x := by
  induction cs with
  | nil => intro c x hx; cases hx
  | cons d cs ih =>
    intro c x hx
    rcases List.mem_cons.mp hx with h | h
    · subst h
      exact Nat.le_trans (foldl_min_le_init cs _) (Nat.min_le_right c x)
    · exact ih _ x h

theorem foldl_min_mem (cs : List Nat) :
    ∀ c, cs.foldl Nat.min c = c ∨ cs.foldl Nat.min c ∈ cs := by
  induction cs with
  | nil => intro c; exact Or.inl rfl
  | cons d cs ih =>
    intro c
    rw [List.foldl_cons]
    rcases ih (Nat.min c d) with h | h
    · rw [h]
      by_cases hcd : c ≤ d
      · refine Or.inl ?_
        unfold Nat.min
        exact min_eq_left hcd
      · refine Or.inr ?_
        unfold Nat.min
        rw [min_eq_right (le_of_not_le hcd)]
        exact List.mem_cons_self d cs
    · exact Or.inr (List.mem_cons_of_mem d h)

theorem validDeadlineFilter_eq_some (d : Option String) (s : String) :
    validDeadlineFilter d = some s ↔
      d = some s ∧ s ≠ "" ∧ (parseDateCode s).isSome := by
  cases d with
  | none => simp [validDeadlineFilter]
  | some s0 =>
    by_cases h : s0 ≠ "" ∧ (parseDateCode s0).isSome
    · simp only [validDeadlineFilter]
      rw [if_pos (by simpa [Bool.and_eq_true, decide_eq_true_eq] using h)]
      constructor
      · rintro h0
        injection h0 with h0
        subst h0
        exact ⟨rfl, h⟩
      · rintro ⟨h0, _⟩
        injection h0 with h0
        rw [h0]
    · simp only [validDeadlineFilter]
      rw [if_neg (by simpa [Bool.and_eq_true, decide_eq_true_eq] using h)]
      constructor
      · rintro h0; cases h0
      · rintro ⟨h0, h1, h2⟩
        injection h0 with h0
        subst h0
        exact absurd ⟨h1, h2⟩ h

theorem mem_deadlineCodes (tasks : List Task) (c : Nat) :
    c ∈ (validDeadlines tasks).filterMap parseDateCode ↔
      ∃ t ∈ tasks, ∃ s, t.deadline = some s ∧ parseDateCode s = some c := by
  simp only [validDeadlines, List.mem_filterMap, List.mem_map]
  constructor
  · rintro ⟨s, ⟨d, ⟨t, ht, hd⟩, hg⟩, hp⟩
    obtain ⟨hds, _, _⟩ := (validDeadlineFilter_eq_some d s).mp hg
    exact ⟨t, ht, s, by rw [hd, hds], hp⟩
  · rintro ⟨t, ht, s, hs, hp⟩
    refine ⟨s, ⟨t.deadline, ⟨t, ht, rfl⟩, ?_⟩, hp⟩
    exact (validDeadlineFilter_eq_some _ s).mpr ⟨hs, by rintro rfl; simp [parseDateCode] at hp, by simp [hp]⟩

/-- Claim C4 counterexample: for the cluster with member deadlines
`["2024-01-10", null, "2024-01-05"]` the synthesized parent deadline is
not the member string "2024-01-05" — the source renders the minimum
instant back through `toISOString()`, producing
"2024-01-05T00:00:00.000Z" (the same calendar date). -/
theorem parent_deadline_literal_counterexample :
    (createParentTask "p1" (.ok "Combined") exDeadlineGroup).deadline ≠
      some "2024-01-05" ∧
    (createParentTask "p1" (.ok "Combined") exDeadlineGroup).deadline =
      some "2024-01-05T00:00:00.000Z" := by decide

/-- Claim C4 (amended): the synthesized parent deadline is `null` exactly
when no member deadline is present and parseable (invalid date strings
are ignored, not raised); otherwise it is the ISO rendering of the
minimum of the members' valid deadlines; in particular for member
deadlines `["2024-01-10", null, "2024-01-05"]` it is
"2024-01-05T00:00:00.000Z", the rendering of 2024-01-05. -/
theorem parent_deadline_minimum :
    (∀ tasks : List Task,
      (getEarliestDeadline tasks = none ↔
        ∀ t ∈ tasks, ∀ s, t.deadline = some s → parseDateCode s = none)) ∧
    (∀ (tasks : List Task) (r : String), getEarliestDeadline tasks = some r →
      ∃ t ∈ tasks, ∃ s c, t.deadline = some s ∧ parseDateCode s = some c ∧
        r = renderIso c ∧
        ∀ t2 ∈ tasks, ∀ s2 c2, t2.deadline = some s2 → parseDateCode s2 = some c2 →
          c ≤ c2) ∧
    (createParentTask "p1" (.ok "Combined") exDeadlineGroup).deadline =
      some "2024-01-05T00:00:00.000Z" := by
  refine ⟨?_, ?_, by decide⟩
  · intro tasks
    constructor
    · intro h t ht s hs
      cases hp : parseDateCode s with
      | none => rfl
      | some c =>
        exfalso
        have hc : c ∈ (validDeadlines tasks).filterMap parseDateCode :=
          (mem_deadlineCodes tasks c).mpr ⟨t, ht, s, hs, hp⟩
        unfold getEarliestDeadline at h
        cases hcs : (validDeadlines tasks).filterMap parseDateCode with
        | nil => rw [hcs] at hc; cases hc
        | cons c0 cs0 => rw [hcs] at h; cases h
    · intro hall
      unfold getEarliestDeadline
      cases hcs : (validDeadlines tasks).filterMap parseDateCode with
      | nil => rfl
      | cons c0 cs0 =>
        exfalso
        have hc : c0 ∈ (validDeadlines tasks).filterMap parseDateCode := by
          rw [hcs]; exact List.mem_cons_self c0 cs0
        obtain ⟨t, ht, s, hs, hp⟩ := (mem_deadlineCodes tasks c0).mp hc
        rw [hall t ht s hs] at hp
        cases hp
  · intro tasks r h
    unfold getEarliestDeadline at h
    cases hcs : (validDeadlines tasks).filterMap parseDateCode with
    | nil => rw [hcs] at h; cases h
    | cons c0 cs0 =>
      rw [hcs] at h
      injection h with h
      have hmem : cs0.foldl Nat.min c0 = c0 ∨ cs0.foldl Nat.min c0 ∈ cs0 :=
        foldl_min_mem cs0 c0
      have hmm : cs0.foldl Nat.min c0 ∈ (validDeadlines tasks).filterMap parseDateCode := by
        rw [hcs]
        rcases hmem with h1 | h1
        · rw [h1]; exact List.mem_cons_self c0 cs0
        · exact List.mem_cons_of_mem c0 h1
      obtain ⟨t, ht, s, hs, hp⟩ := (mem_deadlineCodes tasks _).mp hmm
      refine ⟨t, ht, s, cs0.foldl Nat.min c0, hs, hp, h.symm, ?_⟩
      intro t2 ht2 s2 c2 hs2 hp2
      have hc2 : c2 ∈ (validDeadlines tasks).filterMap parseDateCode :=
        (mem_deadlineCodes tasks c2).mpr ⟨t2, ht2, s2, hs2, hp2⟩
      rw [hcs] at hc2
      rcases List.mem_cons.mp hc2 with h2 | h2
      · rw [h2]
        exact foldl_min_le_init cs0 c0
      · exact foldl_min_le_mem cs0 c0 c2 h2

/-- Witness for `parent_deadline_minimum` at the example cluster: the
computed deadline "2024-01-05T00:00:00.000Z" comes from the member
deadline "2024-01-05" and bounds every member's parsed deadline from
below. -/
theorem parent_deadline_minimum_witness :
    getEarliestDeadline exDeadlineGroup = some "2024-01-05T00:00:00.000Z" ∧
    ∃ t ∈ exDeadlineGroup, ∃ s c, t.deadline = some s ∧ parseDateCode s = some c ∧
      "2024-01-05T00:00:00.000Z" = renderIso c ∧
      ∀ t2 ∈ exDeadlineGroup, ∀ s2 c2, t2.deadline = some s2 →
        parseDateCode s2 = some c2 → c ≤ c2 :=
  ⟨by decide, parent_deadline_minimum.2.1 exDeadlineGroup _ (by decide)⟩

/-- Claim C5 counterexample: two creation attempts in the same (empty)
thread with descriptions equal after lower-casing and trimming.  The
insert stores `task.threadId || null` as SQL `NULL`, while the duplicate
check queries `thread_id = ''`, which never matches `NULL`; hence the
second attempt is inserted rather than suppressed, and the number of
stored non-completed rows whose `thread_id` equals the thread is `0`,
not `1`. -/
theorem duplicate_suppression_empty_thread_counterexample :
    exA0.threadId = exB0.threadId ∧
    jsTrim (jsToLower exA0.description) = jsTrim (jsToLower exB0.description) ∧
    handleTaskCreated (handleTaskCreated [] exA0) exB0 ≠ handleTaskCreated [] exA0 ∧
    threadNormCount (handleTaskCreated (handleTaskCreated [] exA0) exB0)
      exA0.threadId (jsTrim (jsToLower exA0.description)) = 0 := by decide

/-- The row `dbService.handleTaskCreated` inserts for a task whose
thread id is the non-empty string `t`. -/
def insertedRow (a : Task) (t : String) : DbRow :=
  { id := a.id
    thread_id := some t
    description := a.description
    deadline := a.deadline
    priority := a.priority
    status := a.status }

/-- Claim C5 (amended): for every thread with a NON-EMPTY id, two
creation attempts whose descriptions are equal after lower-casing and
trimming leave the durable store with exactly one non-completed task of
that thread carrying that normalized description, the second attempt
being suppressed (the store is unchanged by it). -/
theorem duplicate_suppression_nonempty_thread (db : List DbRow) (t : String)
    (a b : Task)
    (ht : t ≠ "") (hat : a.threadId = t) (hbt : b.threadId = t)
    (has : a.status ≠ "COMPLETED")
    (hdesc : jsTrim (jsToLower a.description) = jsTrim (jsToLower b.description))
    (hfresh : ∀ r ∈ db, r.id ≠ a.id)
    (hnone : threadNormCount db t (jsTrim (jsToLower a.description)) = 0) :
    handleTaskCreated (handleTaskCreated db a) b = handleTaskCreated db a ∧
    threadNormCount (handleTaskCreated db a) t (jsTrim (jsToLower a.description)) = 1 := by
  have hnoneP : ∀ r ∈ db, r.thread_id = some t → r.status ≠ "COMPLETED" →
      jsTrim (jsToLower r.description) ≠ jsTrim (jsToLower a.description) := by
    intro r hr h1 h2 h3
    unfold threadNormCount at hnone
    rw [List.length_eq_zero] at hnone
    have hmem : r ∈ db.filter
        (fun r => r.thread_id = some t ∧ r.status ≠ "COMPLETED" ∧
          jsTrim (jsToLower r.description) = jsTrim (jsToLower a.description)) :=
      List.mem_filter.mpr ⟨hr, by simp [h1, h2, h3]⟩
    rw [hnone] at hmem
    cases hmem
  have hdup1 : (getTasksByThreadId db a.threadId).any
      (fun e => jsTrim (jsToLower e.description) = jsTrim (jsToLower a.description)) =
        false := by
    rw [Bool.eq_false_iff]
    intro hany
    rw [List.any_eq_true] at hany
    obtain ⟨e, he, hee⟩ := hany
    unfold getTasksByThreadId at he
    rw [List.mem_filter] at he
    obtain ⟨hedb, hcond⟩ := he
    rw [decide_eq_true_eq] at hcond
    obtain ⟨h1, h2⟩ := hcond
    rw [hat] at h1
    exact hnoneP e hedb h1 h2 (by rwa [decide_eq_true_eq] at hee)
  have h1 : handleTaskCreated db a = dbInsertTask db a := by
    simp only [handleTaskCreated]
    rw [hdup1]
    simp
  have hanyid : db.any (fun r => r.id = a.id) = false := by
    rw [Bool.eq_false_iff]
    intro hany
    rw [List.any_eq_true] at hany
    obtain ⟨r, hr, hid⟩ := hany
    exact hfresh r hr (by rwa [decide_eq_true_eq] at hid)
  have h2 : dbInsertTask db a = db ++ [insertedRow a t] := by
    simp only [dbInsertTask, insertedRow]
    rw [hanyid, hat, if_neg ht]
    simp
  have hcount : threadNormCount (db ++ [insertedRow a t]) t
      (jsTrim (jsToLower a.description)) = 1 := by
    unfold threadNormCount at hnone ⊢
    rw [List.filter_append, List.length_append, hnone]
    simp [insertedRow, has]
  have hdup2 : (getTasksByThreadId (db ++ [insertedRow a t]) b.threadId).any
      (fun e => jsTrim (jsToLower e.description) = jsTrim (jsToLower b.description)) =
        true := by
    rw [List.any_eq_true]
    refine ⟨insertedRow a t, ?_, ?_⟩
    · unfold getTasksByThreadId
      rw [List.mem_filter]
      refine ⟨List.mem_append_right _ (by simp), ?_⟩
      rw [decide_eq_true_eq]
      exact ⟨by rw [hbt]; rfl, has⟩
    · rw [decide_eq_true_eq]
      exact hdesc
  have h5 : handleTaskCreated (db ++ [insertedRow a t]) b = db ++ [insertedRow a t] := by
    simp only [handleTaskCreated]
    rw [hdup2]
    simp
  refine ⟨?_, ?_⟩
  · rw [h1, h2, h5]
  · rw [h1, h2]
    exact hcount

/-- Witness for `duplicate_suppression_nonempty_thread` at the concrete
pair ("Send report", "  SEND REPORT") in thread "th1" over the empty
store: the second attempt changes nothing and the thread holds exactly
one matching row. -/
theorem duplicate_suppression_nonempty_thread_witness :
    handleTaskCreated (handleTaskCreated [] exA) exB = handleTaskCreated [] exA ∧
    threadNormCount (handleTaskCreated [] exA) "th1"
      (jsTrim (jsToLower exA.description)) = 1 :=
  duplicate_suppression_nonempty_thread [] "th1" exA exB (by decide) (by decide)
    (by decide) (by decide) (by decide) (by simp) (by decide)

end GmailAgent
